import Mathlib

/-!
Shallow embedding of the `DataTable` pipeline from
`src/Components/DataTable/DataTable.tsx`: search filtering (`filteredData`),
three-state sorting (`sortedData`, `handleSort`), pagination
(`paginatedData`, `totalPages`) and the selection ledger
(`handleRowSelect`, `handleSelectAll`), together with theorems about the
behaviour of this pipeline.

Cell values are modelled by the fragment actually exercised by the
component: strings, integer-valued numbers, `null` and `undefined`.
JavaScript machine floats outside this fragment are not modelled.
-/

namespace DataTable

/-- A JavaScript cell value: the fragment of JS values the table's pipeline
manipulates (strings, integer-valued numbers, `null`, `undefined`). -/
inductive Value : Type where
  | vStr (s : String)
  | vNum (n : Int)
  | vNull
  | vUndefined
deriving DecidableEq

/-- JS loose equality to `null` (`value == null`): true exactly on `null`
and `undefined`. -/
def Value.isNullish : Value → Bool
  | .vNull => true
  | .vUndefined => true
  | _ => false

/-- JS nullish coalescing `a ?? b`. -/
def nullishCoalesce (a b : Value) : Value :=
  if a.isNullish then b else a

/-- JS `String(value)` on the modelled fragment: numbers print in decimal,
`null` prints as `"null"` and `undefined` as `"undefined"`. -/
def jsString : Value → String
  | .vStr s => s
  | .vNum n => toString n
  | .vNull => "null"
  | .vUndefined => "undefined"

/-- The whitespace and line-terminator characters ECMAScript `ToNumber`
strips from both ends of a string (the ASCII ones plus NBSP, LS, PS and
the BOM). -/
def isJsSpace (c : Char) : Bool :=
  c == ' ' || c == '\t' || c == '\n' || c == '\r' ||
  c == Char.ofNat 11 || c == Char.ofNat 12 || c == Char.ofNat 160 ||
  c == Char.ofNat 8232 || c == Char.ofNat 8233 || c == Char.ofNat 65279

/-- Strip leading and trailing JS whitespace from a character list. -/
def trimChars (l : List Char) : List Char :=
  ((l.dropWhile isJsSpace).reverse.dropWhile isJsSpace).reverse

/-- Accumulate one decimal digit character onto a value (code point 48 is
the digit `0`). -/
def pushDecDigit (acc : Nat) (c : Char) : Nat :=
  10 * acc + (c.toNat - 48)

/-- Parse a non-empty all-digit character list as a natural number. -/
def digitsToNat : List Char → Option Nat
  | [] => none
  | l => if l.all Char.isDigit then some (l.foldl pushDecDigit 0) else none

/-- The result of `ToNumber` on a numeric string, valued exactly:
`finite num scale` denotes the rational `num / 10 ^ scale` (the
idealisation values literals exactly rather than rounding them to the
nearest binary64 float), and `posInf` / `negInf` are the infinities
produced by a signed `Infinity` literal. NaN is the `none` of
`Option JsNumber`. -/
inductive JsNumber : Type where
  | finite (num : Int) (scale : Nat)
  | posInf
  | negInf
deriving DecidableEq

/-- Negate a JS number (for a leading minus sign). -/
def jsNumberNeg : JsNumber → JsNumber
  | .finite num scale => .finite (-num) scale
  | .posInf => .negInf
  | .negInf => .posInf

/-- The digit value of a character up to base 16, `none` for a non-digit
(code points 48-57 are `0`-`9`, 97-102 are `a`-`f`, 65-70 are `A`-`F`). -/
def charDigitVal (c : Char) : Option Nat :=
  match c.toNat with
  | n =>
    if 48 ≤ n && n ≤ 57 then some (n - 48)
    else if 97 ≤ n && n ≤ 102 then some (n - 87)
    else if 65 ≤ n && n ≤ 70 then some (n - 55)
    else none

/-- Parse a non-empty character list as digits of the given base (used for
the `0x`/`0o`/`0b` radix literals of `ToNumber`). -/
def digitsInBase (base : Nat) : List Char → Option Nat
  | [] => none
  | l =>
    if l.all (fun c => match charDigitVal c with | some v => v < base | none => false) then
      some (l.foldl (fun acc c => base * acc + (charDigitVal c).getD 0) 0)
    else none

/-- The numeric value of a digit list, assuming every character is a
decimal digit. -/
def natOfDigits (l : List Char) : Nat :=
  l.foldl pushDecDigit 0

/-- Parse the mantissa of a `StrDecimalLiteral`: integer digits, an
optional decimal point and fraction digits, with at least one digit
overall. Returns the concatenated digit value, the number of fraction
digits, and the unconsumed remainder. -/
def parseDecMantissa (l : List Char) : Option (Nat × Nat × List Char) :=
  let intDs := l.takeWhile Char.isDigit
  match l.dropWhile Char.isDigit with
  | '.' :: r2 =>
    let fracDs := r2.takeWhile Char.isDigit
    if intDs.isEmpty && fracDs.isEmpty then none
    else some (natOfDigits (intDs ++ fracDs), fracDs.length, r2.dropWhile Char.isDigit)
  | r1 =>
    if intDs.isEmpty then none
    else some (natOfDigits intDs, 0, r1)

/-- Parse the rest of a decimal literal after the mantissa: either nothing
(exponent 0) or `e`/`E`, an optional sign and a non-empty digit run. -/
def parseExponent : List Char → Option Int
  | [] => some 0
  | c :: rest =>
    if c == 'e' || c == 'E' then
      match rest with
      | '+' :: ds => (digitsToNat ds).map (fun n => (n : Int))
      | '-' :: ds => (digitsToNat ds).map (fun n => -(n : Int))
      | ds => (digitsToNat ds).map (fun n => (n : Int))
    else none

/-- Assemble `mant · 10 ^ (e - scale)` as an exact `JsNumber`. -/
def mkFinite (mant scale : Nat) (e : Int) : JsNumber :=
  if (scale : Int) ≤ e then
    .finite ((mant : Int) * (10 : Int) ^ (e - (scale : Int)).toNat) 0
  else
    .finite (mant : Int) ((scale : Int) - e).toNat

/-- Parse an unsigned `StrDecimalLiteral`: the exact word `Infinity`, or a
decimal mantissa followed by an optional exponent, consuming the whole
input. -/
def parseUnsignedDec (l : List Char) : Option JsNumber :=
  if l = "Infinity".toList then some .posInf
  else
    match parseDecMantissa l with
    | none => none
    | some (mant, scale, rest) =>
      match parseExponent rest with
      | none => none
      | some e => some (mkFinite mant scale e)

/-- Parse a `StrDecimalLiteral` with its optional leading sign. -/
def parseSignedDec : List Char → Option JsNumber
  | '+' :: rest => parseUnsignedDec rest
  | '-' :: rest => (parseUnsignedDec rest).map jsNumberNeg
  | l => parseUnsignedDec l

/-- Parse a trimmed non-empty `StrNumericLiteral`: an unsigned
`0x`/`0o`/`0b` radix literal, or a signed decimal literal (a sign is not
permitted before a radix literal, which the fall-through to the decimal
parser makes fail as in JS). -/
def parseNumericChars : List Char → Option JsNumber
  | '0' :: x :: rest =>
    if x == 'x' || x == 'X' then (digitsInBase 16 rest).map (fun n => .finite (n : Int) 0)
    else if x == 'o' || x == 'O' then (digitsInBase 8 rest).map (fun n => .finite (n : Int) 0)
    else if x == 'b' || x == 'B' then (digitsInBase 2 rest).map (fun n => .finite (n : Int) 0)
    else parseSignedDec ('0' :: x :: rest)
  | l => parseSignedDec l

/-- JS `Number(string)` coercion, as the abstract relational comparison
`<` performs it on a string/number pair: trim whitespace, the empty
remainder coerces to `0`, a `StrNumericLiteral` (optional sign, `Infinity`,
decimal digits with optional fraction and exponent, or an unsigned
hex/octal/binary radix literal) coerces to its exact value, and every
other string coerces to NaN, modelled as `none`. -/
def jsToNumber (s : String) : Option JsNumber :=
  match trimChars s.toList with
  | [] => some (.finite 0 0)
  | l => parseNumericChars l

/-- Is the coerced string value strictly below the integer `b`? (`none` is
NaN, whose comparisons are all false.) -/
def jsNumberLtInt : Option JsNumber → Int → Bool
  | some (.finite num scale), b => num < b * (10 : Int) ^ scale
  | some .posInf, _ => false
  | some .negInf, _ => true
  | none, _ => false

/-- Is the integer `a` strictly below the coerced string value? -/
def intLtJsNumber (a : Int) : Option JsNumber → Bool
  | some (.finite num scale) => a * (10 : Int) ^ scale < num
  | some .posInf => true
  | some .negInf => false
  | none => false

/-- Code-unit lexicographic three-way comparison of character lists. -/
def charListCompare : List Char → List Char → Int
  | [], [] => 0
  | [], _ :: _ => -1
  | _ :: _, [] => 1
  | c :: cs, d :: ds =>
    if c < d then -1 else if d < c then 1 else charListCompare cs ds

/-- Three-way string comparison; models the sign of
`String.prototype.localeCompare` (locale-naive, code-unit order). -/
def strCompare (s t : String) : Int :=
  charListCompare s.toList t.toList

/-- Does `hay` start with `need`? (helper for substring containment). -/
def charListStartsWith : List Char → List Char → Bool
  | [], _ => true
  | _ :: _, [] => false
  | c :: cs, d :: ds => c == d && charListStartsWith cs ds

/-- Substring containment on character lists (`need` occurs somewhere in
`hay`); the empty needle occurs in every haystack. -/
def charListContains (hay need : List Char) : Bool :=
  match hay with
  | [] => need.isEmpty
  | _ :: t => charListStartsWith need hay || charListContains t need

/-- JS `hay.includes(need)`: substring containment. -/
def jsIncludes (hay need : String) : Bool :=
  charListContains hay.toList need.toList

/-- Lowercase one character (the ASCII fragment of JS `toLowerCase`). -/
def charToLower (c : Char) : Char :=
  if 'A' ≤ c && c ≤ 'Z' then Char.ofNat (c.toNat + 32) else c

/-- JS `s.toLowerCase()` on the modelled (ASCII) fragment. -/
def jsToLower (s : String) : String :=
  ⟨s.toList.map charToLower⟩

/-- A row is an opaque record, modelled as a field-name/value association
list; the component is generic over the row shape (`T extends
Record<string, any>`). -/
def Row : Type := List (String × Value)
deriving DecidableEq

/-- JS property access `record[field]`: a missing field reads as
`undefined`. -/
def getField (r : Row) (f : String) : Value :=
  match r.find? (fun p => p.1 == f) with
  | some p => p.2
  | none => .vUndefined

/-- The `Column<T>` descriptor (the fields the data pipeline reads:
`key`, `dataIndex`, `sortable`; presentation-only fields are omitted). -/
structure Column : Type where
  key : String
  dataIndex : String
  sortable : Bool
deriving DecidableEq

/-- The `rowKey` prop: either a field selector (`keyof T`) or a derivation
function (`(record: T) => string | number`). -/
inductive RowKeySpec : Type where
  | field (name : String)
  | derived (f : Row → Value)

/-- The source's `getRowKey`: a function `rowKey` is applied to the
record; a field selector reads the field, falling back to the row's
position via `?? index`. -/
def getRowKey (rowKey : RowKeySpec) (record : Row) (index : Nat) : Value :=
  match rowKey with
  | .derived f => f record
  | .field name => nullishCoalesce (getField record name) (.vNum index)

/-- The `SortOrder` type, `'asc' | 'desc'` (the `null` case is the `Option.none` of
`SortState.order`). -/
inductive SortOrder : Type where
  | asc
  | desc
deriving DecidableEq

/-- The `SortState` record: `key : string | null`, `order : SortOrder |
null`. -/
structure SortState : Type where
  key : Option String
  order : Option SortOrder
deriving DecidableEq

/-- The immutable configuration props of one `DataTable` instance that the
data pipeline reads. -/
structure Config : Type where
  data : List Row
  columns : List Column
  pageSize : Option Nat
  rowKey : RowKeySpec

/-- The component's mutable state hooks: `selectedRows` (a JS `Set`,
modelled as a duplicate-free list in insertion order), `sortState`,
`searchQuery` and `currentPage`. -/
structure TableState : Type where
  selectedRows : List Value
  sortState : SortState
  searchQuery : String
  currentPage : Nat

/-- The initial state of the hooks: empty selection, no sort, empty query,
page 1. -/
def initialState : TableState :=
  { selectedRows := [], sortState := { key := none, order := none },
    searchQuery := "", currentPage := 1 }

/-- The row predicate inside `filteredData`'s `data.filter`: some column's
resolved value, stringified and lowercased, contains the lowercased
query. -/
def rowMatchesQuery (columns : List Column) (q : String) (record : Row) : Bool :=
  columns.any fun column =>
    jsIncludes (jsToLower (jsString (getField record column.dataIndex))) (jsToLower q)

/-- The `filteredData` stage: `if (!searchQuery) return data` (the empty string is
falsy), otherwise keep the rows matching the query. -/
def filteredData (data : List Row) (columns : List Column) (q : String) : List Row :=
  if q = "" then data
  else data.filter (fun record => rowMatchesQuery columns q record)

/-- The JS abstract relational comparison `a < b` on the non-nullish,
not-both-string pairs that reach lines 93-94 of the source: a
string/number pair coerces the string with `Number(·)`; a NaN coercion
makes `<` false both ways. (The nullish cases are unreachable behind
the `== null` guards in the comparator and return `false`.) -/
def jsLt : Value → Value → Bool
  | .vNum a, .vNum b => a < b
  | .vStr s, .vNum b => jsNumberLtInt (jsToNumber s) b
  | .vNum a, .vStr t => intLtJsNumber a (jsToNumber t)
  | .vStr s, .vStr t => strCompare s t < 0
  | _, _ => false

/-- The comparator body of `sortedData`'s `.sort((a,b) => ...)`, on the two
resolved values: nullish values sort first ascending / last descending;
two strings compare via `localeCompare` (negated for descending); any
other pair falls through to JS `<`. -/
def compareValues (order : SortOrder) (aVal bVal : Value) : Int :=
  if aVal.isNullish then (match order with | .asc => -1 | .desc => 1)
  else if bVal.isNullish then (match order with | .asc => 1 | .desc => -1)
  else match aVal, bVal with
    | .vStr s, .vStr t =>
      (match order with | .asc => strCompare s t | .desc => -(strCompare s t))
    | a, b =>
      if jsLt a b then (match order with | .asc => -1 | .desc => 1)
      else if jsLt b a then (match order with | .asc => 1 | .desc => -1)
      else 0

/-- The comparator of `sortedData` applied to two rows: resolve each row's
value at the sorted column's `dataIndex`, then compare. -/
def compareRows (column : Column) (order : SortOrder) (a b : Row) : Int :=
  compareValues order (getField a column.dataIndex) (getField b column.dataIndex)

/-- The call `[...filteredData].sort(comparator)`: ECMAScript guarantees a stable
sort (for a consistent comparator every stable algorithm produces the same
output); modelled as stable insertion sort on the relation
`comparator a b ≤ 0`. -/
def jsSort (column : Column) (order : SortOrder) (l : List Row) : List Row :=
  List.insertionSort (fun a b => compareRows column order a b ≤ 0) l

/-- The `sortedData` stage: identity unless both `sortState.key` and
`sortState.order` are truthy (in JS the empty-string key is falsy) and the
key resolves to a column; otherwise sort the filtered rows with the
comparator. -/
def sortedData (columns : List Column) (st : SortState) (filtered : List Row) : List Row :=
  match st.key, st.order with
  | some k, some order =>
    if k = "" then filtered
    else
      match columns.find? (fun col => col.key == k) with
      | none => filtered
      | some column => jsSort column order filtered
  | _, _ => filtered

/-- The `paginatedData` stage: `if (!pageSize) return sortedData` (zero is falsy),
otherwise `sortedData.slice(startIndex, startIndex + pageSize)` with
`startIndex = (currentPage - 1) * pageSize`; `slice` clips to the
collection bounds. -/
def paginatedData (pageSize : Option Nat) (currentPage : Nat) (sorted : List Row) : List Row :=
  match pageSize with
  | none => sorted
  | some 0 => sorted
  | some ps => ((sorted.drop ((currentPage - 1) * ps)).take ps)

/-- The page count `totalPages = pageSize ? Math.ceil(sortedData.length / pageSize) : 1`
(zero `pageSize` is falsy). -/
def totalPages (pageSize : Option Nat) (sortedLength : Nat) : Nat :=
  match pageSize with
  | none => 1
  | some 0 => 1
  | some ps => (sortedLength + ps - 1) / ps

/-- The click handler `handleSort`: ignore non-sortable columns; a different column starts at
ascending; ascending moves to descending; descending clears the sort. -/
def handleSort (column : Column) (prev : SortState) : SortState :=
  if !column.sortable then prev
  else if prev.key ≠ some column.key then { key := some column.key, order := some .asc }
  else if prev.order = some .asc then { key := some column.key, order := some .desc }
  else { key := none, order := none }

/-- JS `Set.prototype.add`: append the key if it is not already a member
(SameValueZero equality is structural equality on the modelled values). -/
def selAdd (s : List Value) (k : Value) : List Value :=
  if k ∈ s then s else s ++ [k]

/-- JS `Set.prototype.delete`: remove the key. -/
def selDelete (s : List Value) (k : Value) : List Value :=
  s.filter (fun x => decide (x ≠ k))

/-- JS `new Set(array)`: the members of `array`, deduplicated in first
occurrence order. -/
def selFromList (ks : List Value) : List Value :=
  ks.foldl selAdd []

/-- The expression `data.filter((item, idx) => selected.has(getRowKey(item, idx)))`:
the externally emitted selected-row list, computed over the full dataset
in dataset order. -/
def selectedList (cfg : Config) (selected : List Value) : List Row :=
  ((cfg.data.enum).filter
    (fun p => decide (getRowKey cfg.rowKey p.2 p.1 ∈ selected))).map (fun p => p.2)

/-- The filter stage applied to the current state. -/
def viewFiltered (cfg : Config) (s : TableState) : List Row :=
  filteredData cfg.data cfg.columns s.searchQuery

/-- The sort stage applied to the current state. -/
def viewSorted (cfg : Config) (s : TableState) : List Row :=
  sortedData cfg.columns s.sortState (viewFiltered cfg s)

/-- The pagination stage applied to the current state: the rendered
window. -/
def viewPage (cfg : Config) (s : TableState) : List Row :=
  paginatedData cfg.pageSize s.currentPage (viewSorted cfg s)

/-- The handler `handleRowSelect(record, checked, index)`: add or delete the row's key,
then emit the selected-row list recomputed over the full dataset. Returns
the new selection and the value passed to `onRowSelect`. -/
def handleRowSelect (cfg : Config) (s : TableState) (record : Row) (checked : Bool)
    (index : Nat) : List Value × List Row :=
  let key := getRowKey cfg.rowKey record index
  let newSelected := if checked then selAdd s.selectedRows key else selDelete s.selectedRows key
  (newSelected, selectedList cfg newSelected)

/-- The handler `handleSelectAll(checked)`: when checked, the selection becomes the set
of the current page's keys and the current page itself is emitted; when
unchecked, the selection is cleared and `[]` is emitted. -/
def handleSelectAll (cfg : Config) (s : TableState) (checked : Bool) :
    List Value × List Row :=
  if checked then
    let pd := viewPage cfg s
    let allKeys := selFromList (pd.enum.map (fun p => getRowKey cfg.rowKey p.2 p.1))
    (allKeys, pd)
  else ([], [])

/-- The default cell renderer `String(record[column.dataIndex] ?? '')`
(used when the column supplies no custom `render`). -/
def defaultCellText (record : Row) (column : Column) : String :=
  jsString (nullishCoalesce (getField record column.dataIndex) (.vStr ""))

/-- The user events that drive the component's state. -/
inductive Event : Type where
  | setQuery (q : String)
  | clickHeader (column : Column)
  | setPage (p : Nat)
  | rowToggle (record : Row) (checked : Bool) (index : Nat)
  | selectAll (checked : Bool)
  | clearSelection

/-- One synchronous event step: the successor state, paired with the
selected-row list emitted to the `onRowSelect` observer during the step
(`none` when the event emits nothing; the source only invokes the callback
when one is registered, which is the host's concern). -/
def step (cfg : Config) (s : TableState) : Event → TableState × Option (List Row)
  | .setQuery q => ({ s with searchQuery := q }, none)
  | .clickHeader column => ({ s with sortState := handleSort column s.sortState }, none)
  | .setPage p => ({ s with currentPage := p }, none)
  | .rowToggle record checked index =>
    let r := handleRowSelect cfg s record checked index
    ({ s with selectedRows := r.1 }, some r.2)
  | .selectAll checked =>
    let r := handleSelectAll cfg s checked
    ({ s with selectedRows := r.1 }, some r.2)
  | .clearSelection => ({ s with selectedRows := [] }, some [])

/-! ## Concrete fixtures used by scenario theorems, witnesses and
counterexamples -/

/-- A row `{id:1, name:"Bob"}`. -/
def rowBob : Row := [("id", .vNum 1), ("name", .vStr "Bob")]

/-- A row `{id:2, name:"Amy"}`. -/
def rowAmy : Row := [("id", .vNum 2), ("name", .vStr "Amy")]

/-- A row `{id:3, name:"Cal"}`. -/
def rowCal : Row := [("id", .vNum 3), ("name", .vStr "Cal")]

/-- A second row named `"Bob"`, distinct from `rowBob` by `id`. -/
def rowBobTwin : Row := [("id", .vNum 9), ("name", .vStr "Bob")]

/-- A sortable column over the `name` field. -/
def nameCol : Column := { key := "name", dataIndex := "name", sortable := true }

/-- A sortable column over the `id` field. -/
def idColSortable : Column := { key := "id", dataIndex := "id", sortable := true }

/-- A non-sortable column over the `age` field. -/
def ageColPlain : Column := { key := "age", dataIndex := "age", sortable := false }

/-- The three-row dataset of the spec's concrete sorting scenario, with the
sortable `name` column and no pagination. -/
def cfg3 : Config :=
  { data := [rowBob, rowAmy, rowCal], columns := [nameCol], pageSize := none,
    rowKey := .field "id" }

/-- A single-field row `{id:i}`. -/
def mkIdRow (i : Nat) : Row := [("id", .vNum i)]

/-- The ten-row dataset paginated at 3 rows per page of the select-all
scenario. -/
def cfgTen : Config :=
  { data := (List.range 10).map (fun i => mkIdRow (i + 1)),
    columns := [{ key := "id", dataIndex := "id", sortable := false }],
    pageSize := some 3, rowKey := .field "id" }

/-- Ten-row scenario, after select-all on page 1. -/
def tenS1 : TableState := (step cfgTen initialState (.selectAll true)).1

/-- Ten-row scenario, after navigating to page 2. -/
def tenS2 : TableState := (step cfgTen tenS1 (.setPage 2)).1

/-- Ten-row scenario, after select-all on page 2. -/
def tenS3 : TableState := (step cfgTen tenS2 (.selectAll true)).1

/-- Three-row scenario, after one click on the `name` header. -/
def sortClick1 : TableState := (step cfg3 initialState (.clickHeader nameCol)).1

/-- Three-row scenario, after a second click on the `name` header. -/
def sortClick2 : TableState := (step cfg3 sortClick1 (.clickHeader nameCol)).1

/-- Three-row scenario, after a third click on the `name` header. -/
def sortClick3 : TableState := (step cfg3 sortClick2 (.clickHeader nameCol)).1

/-- Selection-persistence scenario, after toggling `rowAmy` on. -/
def persistS1 : TableState := (step cfg3 initialState (.rowToggle rowAmy true 1)).1

/-- Selection-persistence scenario, after searching for `"zzz"` (which
matches no row). -/
def persistS2 : TableState := (step cfg3 persistS1 (.setQuery "zzz")).1

/-- Selection-persistence scenario, after reverting the query. -/
def persistS3 : TableState := (step cfg3 persistS2 (.setQuery "")).1

/-- Two rows sorted by name, used to compare the select-all emission order
with the full-dataset order. -/
def cfgTwo : Config :=
  { data := [rowBob, rowAmy], columns := [nameCol], pageSize := none,
    rowKey := .field "id" }

/-- State of `cfgTwo` with the ascending name sort active. -/
def sTwoSorted : TableState :=
  { selectedRows := [], sortState := { key := some "name", order := some .asc },
    searchQuery := "", currentPage := 1 }

/-! ## Helper lemmas -/

/-- Membership after a JS `Set.add`. -/
theorem mem_selAdd {s : List Value} {k x : Value} :
    x ∈ selAdd s k ↔ x ∈ s ∨ x = k := by
  unfold selAdd
  split
  · rename_i h
    constructor
    · exact Or.inl
    · rintro (hx | rfl)
      · exact hx
      · exact h
  · simp [List.mem_append]

/-- Membership in a fold of JS `Set.add`s. -/
theorem mem_foldl_selAdd (l : List Value) : ∀ (acc : List Value) (x : Value),
    x ∈ l.foldl selAdd acc ↔ x ∈ acc ∨ x ∈ l := by
  induction l with
  | nil => simp
  | cons a t ih =>
    intro acc x
    rw [List.foldl_cons, ih, mem_selAdd]
    simp [or_assoc]

/-- Membership in `new Set(array)` is membership in the array. -/
theorem mem_selFromList {l : List Value} {x : Value} :
    x ∈ selFromList l ↔ x ∈ l := by
  unfold selFromList
  rw [mem_foldl_selAdd]
  simp

/-! ## Claim theorems -/

/-- C1, counterexample: on the 10-row dataset paginated at 3/page,
selecting all on page 1 and then on page 2 leaves a 3-element selection
from which page 1's key `1` has been removed — not the 6-element union the
claim states. -/
theorem selectAll_two_pages_cex :
    tenS3.selectedRows = [.vNum 4, .vNum 5, .vNum 6] ∧
    tenS3.selectedRows.length = 3 ∧
    Value.vNum 1 ∉ tenS3.selectedRows := by
  refine ⟨by decide, by decide, by decide⟩

/-- C1 (amended): select-all with `checked = true` replaces the selection
set with exactly the identity keys of the current page's rows (previous
selections, including those from other pages, are discarded); on the
10-row dataset at 3/page, selecting all on page 1 and then on page 2
yields the 3-element selection of exactly page 2's rows. -/
theorem selectAll_checked_replaces_selection :
    (∀ (cfg : Config) (s : TableState) (k : Value),
      k ∈ (step cfg s (.selectAll true)).1.selectedRows ↔
        k ∈ (viewPage cfg s).enum.map (fun p => getRowKey cfg.rowKey p.2 p.1)) ∧
    tenS3.selectedRows = [.vNum 4, .vNum 5, .vNum 6] := by
  refine ⟨?_, by decide⟩
  intro cfg s k
  show k ∈ (handleSelectAll cfg s true).1 ↔ _
  rw [handleSelectAll, if_pos rfl]
  exact mem_selFromList

/-- C2: the search filter is the identity on the empty query, and on a
non-empty query returns exactly the rows some of whose columns'
stringified, lowercased values contain the lowercased query — an
order-preserving subsequence of the input. -/
theorem search_filter_spec (data : List Row) (columns : List Column) (q : String)
    (hq : q ≠ "") :
    filteredData data columns "" = data ∧
    filteredData data columns q =
      data.filter (fun r => rowMatchesQuery columns q r) ∧
    List.Sublist (filteredData data columns q) data := by
  refine ⟨by simp [filteredData], by rw [filteredData, if_neg hq], ?_⟩
  rw [filteredData, if_neg hq]
  exact List.filter_sublist data

/-- C2, witness: the theorem applied to a concrete two-row dataset and the
query `"bo"`. -/
theorem search_filter_spec_witness :
    ("bo" : String) ≠ "" ∧
    (filteredData [rowBob, rowAmy] [nameCol] "" = [rowBob, rowAmy] ∧
     filteredData [rowBob, rowAmy] [nameCol] "bo" =
       [rowBob, rowAmy].filter (fun r => rowMatchesQuery [nameCol] "bo" r) ∧
     List.Sublist (filteredData [rowBob, rowAmy] [nameCol] "bo") [rowBob, rowAmy]) :=
  ⟨by decide, search_filter_spec [rowBob, rowAmy] [nameCol] "bo" (by decide)⟩

/-- C3: the sort state machine cycles none → ascending → descending → none
on a sortable column, restarts at ascending on a different sortable
column, ignores non-sortable columns; and on the Bob/Amy/Cal dataset three
clicks on the `name` header show `[Amy, Bob, Cal]`, `[Cal, Bob, Amy]`,
then the original `[Bob, Amy, Cal]`. -/
theorem sort_state_cycle_spec (A B C : Column) (st : SortState)
    (hA : A.sortable = true) (hB : B.sortable = true) (hC : C.sortable = false)
    (hdiff : st.key ≠ some B.key) :
    handleSort A { key := none, order := none } =
      { key := some A.key, order := some .asc } ∧
    handleSort A { key := some A.key, order := some .asc } =
      { key := some A.key, order := some .desc } ∧
    handleSort A { key := some A.key, order := some .desc } =
      { key := none, order := none } ∧
    handleSort B st = { key := some B.key, order := some .asc } ∧
    handleSort C st = st ∧
    viewPage cfg3 sortClick1 = [rowAmy, rowBob, rowCal] ∧
    viewPage cfg3 sortClick2 = [rowCal, rowBob, rowAmy] ∧
    viewPage cfg3 sortClick3 = [rowBob, rowAmy, rowCal] := by
  refine ⟨?_, ?_, ?_, ?_, ?_, by decide, by decide, by decide⟩
  · simp [handleSort, hA]
  · simp [handleSort, hA]
  · simp [handleSort, hA]
  · simp [handleSort, hB, hdiff]
  · simp [handleSort, hC]

/-- C3, witness: the theorem applied to the sortable `name` and `id`
columns, the non-sortable `age` column, and the state sorted ascending by
`name`. -/
theorem sort_state_cycle_spec_witness :
    (nameCol.sortable = true ∧ idColSortable.sortable = true ∧
     ageColPlain.sortable = false ∧
     ({ key := some "name", order := some .asc } : SortState).key ≠
       some idColSortable.key) ∧
    (handleSort nameCol { key := none, order := none } =
      { key := some nameCol.key, order := some .asc } ∧
    handleSort nameCol { key := some nameCol.key, order := some .asc } =
      { key := some nameCol.key, order := some .desc } ∧
    handleSort nameCol { key := some nameCol.key, order := some .desc } =
      { key := none, order := none } ∧
    handleSort idColSortable { key := some "name", order := some .asc } =
      { key := some idColSortable.key, order := some .asc } ∧
    handleSort ageColPlain { key := some "name", order := some .asc } =
      { key := some "name", order := some .asc } ∧
    viewPage cfg3 sortClick1 = [rowAmy, rowBob, rowCal] ∧
    viewPage cfg3 sortClick2 = [rowCal, rowBob, rowAmy] ∧
    viewPage cfg3 sortClick3 = [rowBob, rowAmy, rowCal]) :=
  ⟨⟨by decide, by decide, by decide, by decide⟩,
   sort_state_cycle_spec nameCol idColSortable ageColPlain
     { key := some "name", order := some .asc }
     (by decide) (by decide) (by decide) (by decide)⟩

/-- C5, counterexample: the string `"3"` and the number `5` have different
types, yet the comparator does not treat them as equal — it coerces the
string and returns `-1`. -/
theorem mixed_numeric_string_cex :
    compareValues .asc (.vStr "3") (.vNum 5) = -1 ∧ (-1 : Int) ≠ 0 :=
  ⟨by decide, by decide⟩

/-- C5 (amended): a string/number pair is compared by coercing the string
with JS `Number(·)`: when the string is non-numeric (coerces to NaN) the
comparator returns `0` in both argument orders, so such rows keep their
relative order; a numeric string instead compares numerically. -/
theorem mixed_nan_compares_equal (order : SortOrder) (s : String) (n : Int)
    (h : jsToNumber s = none) :
    compareValues order (.vStr s) (.vNum n) = 0 ∧
    compareValues order (.vNum n) (.vStr s) = 0 := by
  constructor <;>
    simp [compareValues, jsLt, jsNumberLtInt, intLtJsNumber, Value.isNullish, h]

/-- C5, witness: the theorem applied to the non-numeric string `"x"` and
the number `5`. -/
theorem mixed_nan_compares_equal_witness :
    jsToNumber "x" = none ∧
    (compareValues .asc (.vStr "x") (.vNum 5) = 0 ∧
     compareValues .asc (.vNum 5) (.vStr "x") = 0) :=
  ⟨by decide, mixed_nan_compares_equal .asc "x" 5 (by decide)⟩

/-- C6, counterexample: with the ascending name sort active on the dataset
`[Bob, Amy]`, select-all emits the page in sorted order `[Amy, Bob]`,
which differs from the full-dataset-order list `[Bob, Amy]` the claim
prescribes for every selection mutation. -/
theorem selectAll_emission_cex :
    (step cfgTwo sTwoSorted (.selectAll true)).2 = some [rowAmy, rowBob] ∧
    selectedList cfgTwo (step cfgTwo sTwoSorted (.selectAll true)).1.selectedRows =
      [rowBob, rowAmy] ∧
    ([rowAmy, rowBob] : List Row) ≠ [rowBob, rowAmy] := by
  refine ⟨by decide, by decide, by decide⟩

/-- C6 (amended): a row toggle synchronously emits the selected-row list
recomputed by filtering the full dataset in dataset order; select-all with
`checked = true` instead emits the current page window itself (in
sorted/paginated order); deselect-all and clear emit the empty list. -/
theorem emission_spec (cfg : Config) (s : TableState) (r : Row) (c : Bool)
    (i : Nat) :
    (step cfg s (.rowToggle r c i)).2 =
      some (selectedList cfg (step cfg s (.rowToggle r c i)).1.selectedRows) ∧
    (step cfg s (.selectAll true)).2 = some (viewPage cfg s) ∧
    (step cfg s (.selectAll false)).2 = some [] ∧
    (step cfg s .clearSelection).2 = some [] :=
  ⟨rfl, rfl, rfl, rfl⟩

/-- C9: changing the search query, clicking a sort header, and changing
the page all leave the selection set untouched; concretely, selecting
`rowAmy`, filtering it out with the query `"zzz"`, then reverting the
query leaves `rowAmy`'s key selected and the row visible again. -/
theorem selection_frame_invariance (cfg : Config) (s : TableState) (q : String)
    (column : Column) (p : Nat) :
    (step cfg s (.setQuery q)).1.selectedRows = s.selectedRows ∧
    (step cfg s (.clickHeader column)).1.selectedRows = s.selectedRows ∧
    (step cfg s (.setPage p)).1.selectedRows = s.selectedRows ∧
    persistS1.selectedRows = [.vNum 2] ∧
    persistS3.selectedRows = [.vNum 2] ∧
    rowAmy ∉ viewPage cfg3 persistS2 ∧
    rowAmy ∈ viewPage cfg3 persistS3 :=
  ⟨rfl, rfl, rfl, by decide, by decide, by decide, by decide⟩

/-- A row whose `v` field is `null`, with `id` 1. -/
def rowNullA : Row := [("id", .vNum 1), ("v", .vNull)]

/-- A second row whose `v` field is `null`, with `id` 2. -/
def rowNullB : Row := [("id", .vNum 2), ("v", .vNull)]

/-- A sortable column over the `v` field. -/
def vCol : Column := { key := "v", dataIndex := "v", sortable := true }

/-- C4, counterexample: on the empty collection with `pageSize = 3` the
code computes `Math.ceil(0 / 3) = 0` total pages — the claimed minimum of
1 is not applied. -/
theorem totalPages_empty_cex :
    totalPages (some 3) (List.length ([] : List Row)) ≠ 1 := by decide

/-- C4 (amended): with a present positive `pageSize`, `totalPages` is
exactly `ceil(sortedLength / pageSize)` (characterised as the least `m`
with `sortedLength ≤ m * pageSize`) with no minimum applied, so it is `0`
for the empty collection; 7 rows at 3 per page give 3 pages; an absent
`pageSize` gives 1. -/
theorem totalPages_ceil_no_min (ps len : Nat) (hps : 0 < ps) :
    len ≤ totalPages (some ps) len * ps ∧
    (∀ m : Nat, len ≤ m * ps → totalPages (some ps) len ≤ m) ∧
    totalPages (some ps) 0 = 0 ∧
    totalPages none len = 1 ∧
    totalPages (some 3) 7 = 3 := by
  obtain ⟨p, rfl⟩ : ∃ p, ps = p + 1 := ⟨ps - 1, by omega⟩
  have htp : totalPages (some (p + 1)) len = (len + p) / (p + 1) := by
    show (len + (p + 1) - 1) / (p + 1) = (len + p) / (p + 1)
    have harg : len + (p + 1) - 1 = len + p := by omega
    rw [harg]
  refine ⟨?_, ?_, ?_, rfl, by decide⟩
  · rw [htp]
    have h2 := Nat.div_add_mod (len + p) (p + 1)
    have h3 : (len + p) % (p + 1) < p + 1 := Nat.mod_lt _ (by omega)
    nlinarith [h2, h3]
  · intro m hm
    rw [htp, Nat.div_le_iff_le_mul_add_pred (by omega : 0 < p + 1)]
    have h4 : (p + 1) * m = m * (p + 1) := Nat.mul_comm _ _
    have h5 : p + 1 - 1 = p := by omega
    rw [h5, h4]
    exact Nat.add_le_add_right hm p

  · show (0 + (p + 1) - 1) / (p + 1) = 0
    apply Nat.div_eq_of_lt
    omega

/-- C4, witness: the theorem applied at `pageSize = 3` and 7 rows. -/
theorem totalPages_ceil_no_min_witness :
    0 < 3 ∧
    (7 ≤ totalPages (some 3) 7 * 3 ∧
     (∀ m : Nat, 7 ≤ m * 3 → totalPages (some 3) 7 ≤ m) ∧
     totalPages (some 3) 0 = 0 ∧
     totalPages none 7 = 1 ∧
     totalPages (some 3) 7 = 3) :=
  ⟨by decide, totalPages_ceil_no_min 3 7 (by decide)⟩

/-- C7, counterexample: two rows whose values at the sorted column are
both `null` do not compare equal (the comparator returns `1` for every
such pair under descending), and the descending sort reverses their
relative order instead of retaining it. -/
theorem desc_null_pair_cex :
    sortedData [vCol] { key := some "v", order := some .desc }
      [rowNullA, rowNullB] = [rowNullB, rowNullA] ∧
    compareRows vCol .desc rowNullA rowNullB = 1 ∧
    rowNullA ≠ rowNullB := by
  refine ⟨by decide, by decide, by decide⟩

/-- C7 (amended): the sort stage is stable for every pair of rows the
comparator orders weakly left-to-right (`comparator a b ≤ 0`): such a
pair — in particular any pair whose resolved values compare equal, and any
both-null pair under ascending — retains its relative order from the
filtered input. Two both-null rows under descending do not compare equal
(the comparator returns `1` both ways) and may be reversed. -/
theorem sort_stage_stability (columns : List Column) (k : String)
    (order : SortOrder) (column : Column) (l : List Row) (a b : Row)
    (hk : k ≠ "")
    (hcol : columns.find? (fun col => col.key == k) = some column)
    (hcmp : compareRows column order a b ≤ 0)
    (hsub : List.Sublist [a, b] l) :
    List.Sublist [a, b]
      (sortedData columns { key := some k, order := some order } l) := by
  show List.Sublist [a, b]
    (if k = "" then l
     else match columns.find? (fun col => col.key == k) with
       | none => l
       | some column => jsSort column order l)
  rw [if_neg hk, hcol]
  exact List.pair_sublist_insertionSort hcmp hsub

/-- C7, witness: the theorem applied to two distinct rows both named
`"Bob"` inside a three-row list, under the ascending name sort. -/
theorem sort_stage_stability_witness :
    (("name" : String) ≠ "" ∧
     [nameCol].find? (fun col => col.key == "name") = some nameCol ∧
     compareRows nameCol .asc rowBob rowBobTwin ≤ 0 ∧
     List.Sublist [rowBob, rowBobTwin] [rowBob, rowBobTwin, rowAmy]) ∧
    List.Sublist [rowBob, rowBobTwin]
      (sortedData [nameCol] { key := some "name", order := some .asc }
        [rowBob, rowBobTwin, rowAmy]) :=
  ⟨⟨by decide, by decide, by decide, .cons₂ _ (.cons₂ _ (.cons _ .slnil))⟩,
   sort_stage_stability [nameCol] "name" .asc nameCol
     [rowBob, rowBobTwin, rowAmy] rowBob rowBobTwin
     (by decide) (by decide) (by decide)
     (.cons₂ _ (.cons₂ _ (.cons _ .slnil)))⟩

/-- The value of `totalPages` at a positive page size, written with the `+ ps - 1`
truncated subtraction resolved. -/
theorem totalPages_succ (q n : Nat) :
    totalPages (some (q + 1)) n = (n + q) / (q + 1) := by
  show (n + (q + 1) - 1) / (q + 1) = (n + q) / (q + 1)
  have harg : n + (q + 1) - 1 = n + q := by omega
  rw [harg]

/-- Concatenating the `ceil(length / (q+1))` consecutive `(q+1)`-sized
chunks of a list reconstructs the list. -/
theorem chunksFlatten (q : Nat) : ∀ (n : Nat) (l : List Row), l.length ≤ n →
    ((List.range ((l.length + q) / (q + 1))).map
      (fun i => (l.drop (i * (q + 1))).take (q + 1))).flatten = l := by
  intro n
  induction n with
  | zero =>
    intro l hl
    have hnil : l = [] := List.length_eq_zero.mp (Nat.le_zero.mp hl)
    subst hnil
    simp [Nat.div_eq_of_lt (show 0 + q < q + 1 by omega)]
  | succ n ih =>
    intro l hl
    match l with
    | [] => simp [Nat.div_eq_of_lt (show 0 + q < q + 1 by omega)]
    | x :: xs =>
      have hT : ((x :: xs).length + q) / (q + 1)
          = (((x :: xs).drop (q + 1)).length + q) / (q + 1) + 1 := by
        rw [List.length_drop]
        rcases Nat.le_total (x :: xs).length (q + 1) with h | h
        · rw [Nat.sub_eq_zero_of_le h,
            Nat.div_eq_of_lt (show 0 + q < q + 1 by omega)]
          apply Nat.div_eq_of_lt_le
          · have hpos : 0 < (x :: xs).length := by simp
            omega
          · have hpos : 0 < (x :: xs).length := by simp
            omega
        · have h2 : (x :: xs).length + q
              = ((x :: xs).length - (q + 1) + q) + (q + 1) := by omega
          rw [h2, Nat.add_div_right _ (by omega)]
      rw [hT, List.range_succ_eq_map, List.map_cons, List.flatten_cons,
        List.map_map]
      have hfun : ((fun i => ((x :: xs).drop (i * (q + 1))).take (q + 1)) ∘ Nat.succ)
          = (fun i => (((x :: xs).drop (q + 1)).drop (i * (q + 1))).take (q + 1)) := by
        funext i
        simp only [Function.comp]
        rw [List.drop_drop, Nat.succ_mul, Nat.add_comm (q + 1) (i * (q + 1))]
      rw [hfun,
        ih ((x :: xs).drop (q + 1)) (by
          rw [List.length_drop]
          have : (x :: xs).length ≤ n + 1 := hl
          omega)]
      simp only [Nat.zero_mul, List.drop_zero]
      exact List.take_append_drop (q + 1) (x :: xs)

/-- C8: with no `pageSize` the window is the whole collection; with a
positive `pageSize` the window is the clipped half-open slice
`[(currentPage-1)*pageSize, currentPage*pageSize)` (empty, not an error,
when the page is out of range); and concatenating the windows of pages
`1..totalPages` in order reconstructs exactly the sorted collection. -/
theorem pagination_window_spec (ps p : Nat) (sorted : List Row) (hps : 0 < ps) :
    paginatedData none p sorted = sorted ∧
    paginatedData (some ps) p sorted = (sorted.drop ((p - 1) * ps)).take ps ∧
    (sorted.length ≤ (p - 1) * ps → paginatedData (some ps) p sorted = []) ∧
    ((List.range (totalPages (some ps) sorted.length)).map
        (fun i => paginatedData (some ps) (i + 1) sorted)).flatten = sorted := by
  obtain ⟨q, rfl⟩ : ∃ q, ps = q + 1 := ⟨ps - 1, by omega⟩
  refine ⟨rfl, rfl, ?_, ?_⟩
  · intro hout
    show ((sorted.drop ((p - 1) * (q + 1))).take (q + 1)) = []
    rw [List.drop_eq_nil_of_le hout]
    rfl
  · rw [totalPages_succ]
    exact chunksFlatten q sorted.length sorted (Nat.le_refl _)

/-- C8, witness: the theorem applied at `pageSize = 3`, page 5, on a
7-row collection (page 5 is out of range, so its window is empty). -/
theorem pagination_window_spec_witness :
    0 < 3 ∧
    (paginatedData none 5 ((List.range 7).map mkIdRow) = (List.range 7).map mkIdRow ∧
     paginatedData (some 3) 5 ((List.range 7).map mkIdRow) =
       (((List.range 7).map mkIdRow).drop ((5 - 1) * 3)).take 3 ∧
     (((List.range 7).map mkIdRow).length ≤ (5 - 1) * 3 →
       paginatedData (some 3) 5 ((List.range 7).map mkIdRow) = []) ∧
     ((List.range (totalPages (some 3) ((List.range 7).map mkIdRow).length)).map
         (fun i => paginatedData (some 3) (i + 1) ((List.range 7).map mkIdRow))).flatten =
       (List.range 7).map mkIdRow) :=
  ⟨by decide, pagination_window_spec 3 5 ((List.range 7).map mkIdRow) (by decide)⟩

/-- C10: a row whose resolved value at a searched column is `undefined`
matches the query `"undef"` (the value stringifies to `"undefined"` before
the lowercase substring test) and so survives the filter, even though the
default cell renderer displays that value as the empty string; likewise a
`null` cell matches the query `"null"`. -/
theorem nullish_cells_match_literal_text (data : List Row)
    (columns : List Column) (column : Column) (record : Row)
    (hmem : column ∈ columns)
    (hval : getField record column.dataIndex = Value.vUndefined)
    (hdat : record ∈ data) :
    record ∈ filteredData data columns "undef" ∧
    defaultCellText record column = "" ∧
    (∀ r2 ∈ data, getField r2 column.dataIndex = Value.vNull →
      r2 ∈ filteredData data columns "null" ∧ defaultCellText r2 column = "") := by
  refine ⟨?_, ?_, ?_⟩
  · rw [filteredData, if_neg (by decide : ("undef" : String) ≠ "")]
    refine List.mem_filter.mpr ⟨hdat, ?_⟩
    refine List.any_eq_true.mpr ⟨column, hmem, ?_⟩
    rw [hval]
    decide
  · rw [defaultCellText, hval]
    decide
  · intro r2 hr2 hval2
    refine ⟨?_, ?_⟩
    · rw [filteredData, if_neg (by decide : ("null" : String) ≠ "")]
      refine List.mem_filter.mpr ⟨hr2, ?_⟩
      refine List.any_eq_true.mpr ⟨column, hmem, ?_⟩
      rw [hval2]
      decide
    · rw [defaultCellText, hval2]
      decide

/-- C10, witness: the theorem applied to a dataset holding a row with no
`name` field (so the `name` cell reads as `undefined`) and a row with a
`null` name. -/
theorem nullish_cells_match_literal_text_witness :
    (nameCol ∈ [nameCol] ∧
     getField (mkIdRow 7) nameCol.dataIndex = Value.vUndefined ∧
     mkIdRow 7 ∈ [mkIdRow 7, [("id", Value.vNum 8), ("name", Value.vNull)]]) ∧
    (mkIdRow 7 ∈
       filteredData [mkIdRow 7, [("id", Value.vNum 8), ("name", Value.vNull)]]
         [nameCol] "undef" ∧
     defaultCellText (mkIdRow 7) nameCol = "" ∧
     (∀ r2 ∈ [mkIdRow 7, [("id", Value.vNum 8), ("name", Value.vNull)]],
       getField r2 nameCol.dataIndex = Value.vNull →
         r2 ∈ filteredData [mkIdRow 7, [("id", Value.vNum 8), ("name", Value.vNull)]]
               [nameCol] "null" ∧
         defaultCellText r2 nameCol = "")) :=
  ⟨⟨by decide, by decide, by decide⟩,
   nullish_cells_match_literal_text
     [mkIdRow 7, [("id", Value.vNum 8), ("name", Value.vNull)]]
     [nameCol] nameCol (mkIdRow 7)
     (by decide) (by decide) (by decide)⟩

end DataTable
